import Mathlib

/-!
A verification development for the roster index module (`src/roster_list.c`)
of the profanity XMPP client.  The module keeps an in-memory contact
directory (a GLib hash table keyed by barejid strings) together with four
autocomplete string sets (nicknames, barejids, fulljids, groups) and a
nickname-to-barejid map.  We embed the module shallowly: GLib hash tables
become association lists with first-match lookup / replace-first insert /
remove-first semantics, and the autocomplete sets become duplicate-free
string lists (per the documented autocomplete contract: `add` dedups by
exact match, `remove` deletes the exact match).
-/

namespace Roster

/-- Association-list lookup: first entry whose key equals `k`
(the hash table uses `_key_equals`, i.e. exact string comparison). -/
def tableLookup {α : Type} (m : List (String × α)) (k : String) : Option α :=
  match m with
  | [] => none
  | (k', v) :: rest => if k' = k then some v else tableLookup rest k

/-- `g_hash_table_insert`: replace the value of the existing entry for `k`,
or append a new entry. -/
def tableInsert {α : Type} (m : List (String × α)) (k : String) (v : α) :
    List (String × α) :=
  match m with
  | [] => [(k, v)]
  | (k', v') :: rest =>
    if k' = k then (k, v) :: rest else (k', v') :: tableInsert rest k v

/-- `g_hash_table_remove`: delete the (single) entry for `k`, if any. -/
def tableRemove {α : Type} (m : List (String × α)) (k : String) :
    List (String × α) :=
  match m with
  | [] => []
  | (k', v') :: rest =>
    if k' = k then rest else (k', v') :: tableRemove rest k

/-- The list of keys of an association list. -/
def tableKeys {α : Type} (m : List (String × α)) : List String :=
  m.map (fun p => p.1)

/-- `autocomplete_add`: insert a string, deduplicating by exact match
(per the autocomplete contract stated for the completion indexes). -/
def acAdd (l : List String) (s : String) : List String :=
  if s ∈ l then l else l ++ [s]

/-- `autocomplete_remove`: delete the first exact match of `s`. -/
def acRemove (l : List String) (s : String) : List String :=
  match l with
  | [] => []
  | x :: rest => if x = s then rest else x :: acRemove rest s

/-- Modelled from the spec: `g_utf8_strdown`, the Unicode lower-casing
primitive used to normalise barejids before lookup; modelled as
character-wise lower-casing of the string. -/
def g_utf8_strdown (s : String) : String :=
  ⟨s.data.map Char.toLower⟩

/-- Modelled from the spec: `g_utf8_collate_key`, the locale-aware collation
key primitive (the locale transform itself is opaque to this module, which
only ever compares the resulting key strings); modelled as the identity
embedding of the string, so that key comparison is string comparison. -/
def collateKey (s : String) : String := s

/-- Modelled from the spec: a named presence/session instance of a contact
(`resource.h` is outside the provided sources); it carries a name and a
presence value. -/
structure Resource where
  name : String
  presence : String
  deriving DecidableEq, Repr

/-- Modelled from the spec: the Contact value object (`contact.c` is outside
the provided sources).  Per the spec it exposes name, presence, subscription,
pending-out flag, group list, last-activity, the available-resource list,
resource removal, and collation keys. -/
structure PContact where
  barejid : String
  name : Option String
  groups : List String
  subscription : Option String
  pending_out : Bool
  last_activity : Option Nat
  resources : List (String × Resource)
  name_collate_key : Option String
  barejid_collate_key : String
  deriving DecidableEq, Repr

/-- Modelled from the spec: `p_contact_new` builds a Contact with no
resources and no last-activity, caching the collation keys of the name
(when present) and of the barejid. -/
def p_contact_new (barejid : String) (name : Option String)
    (groups : List String) (subscription : Option String)
    (pending_out : Bool) : PContact :=
  { barejid := barejid, name := name, groups := groups,
    subscription := subscription, pending_out := pending_out,
    last_activity := none, resources := [],
    name_collate_key := name.map collateKey,
    barejid_collate_key := collateKey barejid }

/-- Modelled from the spec: `p_contact_set_name` replaces the display name
and recomputes the cached name collation key. -/
def p_contact_set_name (c : PContact) (n : Option String) : PContact :=
  { c with name := n, name_collate_key := n.map collateKey }

/-- Modelled from the spec: `p_contact_set_presence` applies a resource's
presence onto the Contact by storing the resource under its name. -/
def p_contact_set_presence (c : PContact) (r : Resource) : PContact :=
  { c with resources := tableInsert c.resources r.name r }

/-- Modelled from the spec: `p_contact_remove_resource` asks the Contact to
drop a resource; it reports whether the resource was actually present. -/
def p_contact_remove_resource (c : PContact) (r : String) : Bool × PContact :=
  if (tableLookup c.resources r).isSome then
    (true, { c with resources := tableRemove c.resources r })
  else
    (false, c)

/-- Modelled from the spec: the Contact's presence string; a contact with no
available resources is offline. -/
def p_contact_presence (c : PContact) : String :=
  match c.resources with
  | [] => "offline"
  | (_, r) :: _ => r.presence

/-- Modelled from the spec: `p_contact_get_available_resources` lists the
names of the currently available resources. -/
def p_contact_available_resources (c : PContact) : List String :=
  tableKeys c.resources

/-- Modelled from the spec: `jid_create_from_bare_and_resource` — the
fulljid is the barejid plus `/` plus the resource name. -/
def fulljidOf (barejid resource : String) : String :=
  barejid ++ "/" ++ resource

/-- `_datetimes_equal` from `roster_list.c`: both-absent is equal,
one-absent-one-present is different, both-present compares the values
(`GDateTime` instants are modelled as natural numbers). -/
def datetimes_equal (dt1 dt2 : Option Nat) : Bool :=
  match dt1, dt2 with
  | none, none => true
  | none, some _ => false
  | some _, none => false
  | some a, some b => a == b

/-- The roster index state: the module-level singletons of
`roster_list.c` — four autocomplete sets, the contacts hash table and the
nickname-to-barejid hash table. -/
structure RosterState where
  name_ac : List String
  barejid_ac : List String
  fulljid_ac : List String
  groups_ac : List String
  contacts : List (String × PContact)
  name_to_barejid : List (String × String)
  deriving DecidableEq, Repr

/-- `roster_init`: every structure starts empty. -/
def rosterInit : RosterState :=
  { name_ac := [], barejid_ac := [], fulljid_ac := [], groups_ac := [],
    contacts := [], name_to_barejid := [] }

/-- `roster_clear`: all autocomplete sets are cleared and both hash tables
destroyed and recreated, i.e. the state returns to the initial one. -/
def roster_clear (_ : RosterState) : RosterState := rosterInit

/-- `roster_get_contact`: the barejid is lower-cased, then looked up in the
contacts table. -/
def roster_get_contact (st : RosterState) (barejid : String) :
    Option PContact :=
  tableLookup st.contacts (g_utf8_strdown barejid)

/-- `_add_name_and_barejid`: register `name` (or, when absent, the barejid
itself as fallback) in the name autocomplete set and map it to the barejid
in the name index. -/
def add_name_and_barejid (st : RosterState) (name : Option String)
    (barejid : String) : RosterState :=
  match name with
  | some n =>
    { st with name_ac := acAdd st.name_ac n,
              name_to_barejid := tableInsert st.name_to_barejid n barejid }
  | none =>
    { st with name_ac := acAdd st.name_ac barejid,
              name_to_barejid :=
                tableInsert st.name_to_barejid barejid barejid }

/-- `_replace_name`: if a previous name existed, retire it from the name
set and name index and register the new identifier; else if only a new name
is supplied, retire the barejid fallback key first; else do nothing. -/
def replace_name (st : RosterState) (current_name new_name : Option String)
    (barejid : String) : RosterState :=
  match current_name with
  | some cn =>
    add_name_and_barejid
      { st with name_ac := acRemove st.name_ac cn,
                name_to_barejid := tableRemove st.name_to_barejid cn }
      new_name barejid
  | none =>
    match new_name with
    | some _ =>
      add_name_and_barejid
        { st with name_ac := acRemove st.name_ac barejid,
                  name_to_barejid := tableRemove st.name_to_barejid barejid }
        new_name barejid
    | none => st

/-- `roster_add`: fail when the (lower-cased) barejid already resolves to a
contact; otherwise create the contact, add every group to the group set,
insert the contact under the barejid *as given*, add the barejid to the
barejid set and run the name-registration rule. -/
def roster_add (st : RosterState) (barejid : String) (name : Option String)
    (groups : List String) (subscription : Option String)
    (pending_out : Bool) : Bool × RosterState :=
  match roster_get_contact st barejid with
  | some _ => (false, st)
  | none =>
    let contact := p_contact_new barejid name groups subscription pending_out
    let st1 := { st with groups_ac := groups.foldl acAdd st.groups_ac }
    let st2 := { st1 with
                  contacts := tableInsert st1.contacts barejid contact,
                  barejid_ac := acAdd st1.barejid_ac barejid }
    (true, add_name_and_barejid st2 name barejid)

/-- `roster_update`: requires the contact to exist (asserted in C; the
assertion failure produces no new state, modelled as no change); updates
subscription, pending-out, name (running the name-registration rule against
the previous name) and groups, and adds every group to the group set. -/
def roster_update (st : RosterState) (barejid : String)
    (name : Option String) (groups : List String)
    (subscription : Option String) (pending_out : Bool) : RosterState :=
  match roster_get_contact st barejid with
  | none => st
  | some c =>
    let c1 := { c with subscription := subscription,
                       pending_out := pending_out }
    let current_name := c1.name
    let c2 := p_contact_set_name c1 name
    let c3 := { c2 with groups := groups }
    let st1 := { st with contacts := tableInsert st.contacts (g_utf8_strdown barejid) c3 }
    let st2 := replace_name st1 current_name name barejid
    { st2 with groups_ac := groups.foldl acAdd st2.groups_ac }

/-- `roster_change_name`: takes an existing contact (here identified by a
barejid; a missing contact would violate the C assertion, modelled as no
change), captures the current name, sets the new one and runs the
name-registration rule using the contact's own barejid. -/
def roster_change_name (st : RosterState) (barejid_arg : String)
    (new_name : Option String) : RosterState :=
  match roster_get_contact st barejid_arg with
  | none => st
  | some c =>
    let barejid := c.barejid
    let current_name := c.name
    let c1 := p_contact_set_name c new_name
    let st1 := { st with
                  contacts := tableInsert st.contacts (g_utf8_strdown barejid_arg) c1 }
    replace_name st1 current_name new_name barejid

/-- `roster_remove`: remove the barejid from the barejid set, the name from
the name set and name index (a NULL name is undefined behaviour in C — the
call sites pass a string — modelled as no change to those structures), every
tracked fulljid of the contact from the fulljid set, and finally the contact
itself (under the barejid as given). -/
def roster_remove (st : RosterState) (name : Option String)
    (barejid : String) : RosterState :=
  let st1 := { st with
                barejid_ac := acRemove st.barejid_ac barejid,
                name_ac := match name with
                           | some n => acRemove st.name_ac n
                           | none => st.name_ac,
                name_to_barejid := match name with
                                   | some n => tableRemove st.name_to_barejid n
                                   | none => st.name_to_barejid }
  let st2 := { st1 with
                fulljid_ac :=
                  match roster_get_contact st1 barejid with
                  | some c =>
                    (p_contact_available_resources c).foldl
                      (fun ac r => acRemove ac (fulljidOf barejid r))
                      st1.fulljid_ac
                  | none => st1.fulljid_ac }
  { st2 with contacts := tableRemove st2.contacts barejid }

/-- `roster_update_presence`: fail when the barejid is unknown; otherwise
set last-activity when it differs under `_datetimes_equal`, apply the
resource's presence, and add `barejid/resource` to the fulljid set. -/
def roster_update_presence (st : RosterState) (barejid : String)
    (res : Resource) (last_activity : Option Nat) : Bool × RosterState :=
  match roster_get_contact st barejid with
  | none => (false, st)
  | some c =>
    let c1 := if ¬ (datetimes_equal c.last_activity last_activity = true) then
                { c with last_activity := last_activity }
              else c
    let c2 := p_contact_set_presence c1 res
    (true,
      { st with
         contacts := tableInsert st.contacts (g_utf8_strdown barejid) c2,
         fulljid_ac := acAdd st.fulljid_ac (fulljidOf barejid res.name) })

/-- `roster_contact_offline`: fail when the barejid is unknown; succeed with
no structural change when no resource is given; otherwise ask the Contact to
drop the resource and, only when it confirms, also remove `barejid/resource`
from the fulljid set, returning the Contact's outcome. -/
def roster_contact_offline (st : RosterState) (barejid : String)
    (resource : Option String) (_status : Option String) :
    Bool × RosterState :=
  match roster_get_contact st barejid with
  | none => (false, st)
  | some c =>
    match resource with
    | none => (true, st)
    | some r =>
      let res := p_contact_remove_resource c r
      (res.1,
        { st with
           contacts := tableInsert st.contacts (g_utf8_strdown barejid) res.2,
           fulljid_ac :=
             if res.1 then acRemove st.fulljid_ac (fulljidOf barejid r)
             else st.fulljid_ac })

/-- Lexicographic strict comparison of character lists (the byte order
`strcmp` works with, lifted to the character level). -/
def strLtb : List Char → List Char → Bool
  | [], [] => false
  | [], _ :: _ => true
  | _ :: _, [] => false
  | a :: as, b :: bs =>
    if a < b then true else if b < a then false else strLtb as bs

/-- `g_strcmp0` on two (non-NULL) strings. -/
def strcmp0 (s t : String) : Int :=
  if strLtb s.data t.data then -1
  else if strLtb t.data s.data then 1
  else 0

/-- The comparison key chosen by `_compare_contacts`: the name collation key
when present, else the barejid collation key. -/
def contactKey (c : PContact) : String :=
  match c.name_collate_key with
  | some k => k
  | none => c.barejid_collate_key

/-- `_compare_contacts`: `g_strcmp0` of the chosen collation keys. -/
def compare_contacts (a b : PContact) : Int :=
  strcmp0 (contactKey a) (contactKey b)

/-- The order used by `g_slist_insert_sorted`: `a` precedes `b` when the
comparator is non-positive. -/
def contactR (a b : PContact) : Prop := compare_contacts a b ≤ 0

instance : DecidableRel contactR := fun a b =>
  inferInstanceAs (Decidable (compare_contacts a b ≤ 0))

/-- One `g_slist_insert_sorted` step with `_compare_contacts`: insert before
the first element the new contact does not compare above. -/
def insertContactSorted (l : List PContact) (c : PContact) : List PContact :=
  List.orderedInsert contactR c l

/-- The shared shape of the list-producing queries: iterate the contacts
table, keep the values passing the query's test, inserting each into a
sorted list via `g_slist_insert_sorted`. -/
def sortedCollect (p : PContact → Bool) (m : List (String × PContact)) :
    List PContact :=
  m.foldl (fun res kv => if p kv.2 then insertContactSorted res kv.2 else res) []

/-- `roster_get_contacts`: every contact, sorted. -/
def roster_get_contacts (st : RosterState) : List PContact :=
  sortedCollect (fun _ => true) st.contacts

/-- `roster_get_contacts_by_presence`: contacts whose presence string equals
the argument, sorted. -/
def roster_get_contacts_by_presence (st : RosterState) (presence : String) :
    List PContact :=
  sortedCollect (fun c => p_contact_presence c == presence) st.contacts

/-- `roster_get_contacts_online`: contacts whose presence string differs
from `"offline"`, sorted. -/
def roster_get_contacts_online (st : RosterState) : List PContact :=
  sortedCollect (fun c => p_contact_presence c != "offline") st.contacts

/-- `roster_get_nogroup`: contacts with an empty group list, sorted. -/
def roster_get_nogroup (st : RosterState) : List PContact :=
  sortedCollect (fun c => c.groups.isEmpty) st.contacts

/-- `roster_get_group`: contacts whose group list contains the group,
sorted. -/
def roster_get_group (st : RosterState) (group : String) : List PContact :=
  sortedCollect (fun c => c.groups.contains group) st.contacts

/-- The mutating operations of the roster index API (§ the operation set of
the module: add, update, rename, remove, presence update, contact offline,
and the completion-cursor reset, which per the autocomplete contract leaves
all contents untouched).  Lifecycle calls (`init`/`clear`/`free`) are
separate from this operation set. -/
inductive Op where
  | add (barejid : String) (name : Option String) (groups : List String)
        (subscription : Option String) (pending_out : Bool)
  | update (barejid : String) (name : Option String) (groups : List String)
        (subscription : Option String) (pending_out : Bool)
  | changeName (barejid : String) (new_name : Option String)
  | remove (name : Option String) (barejid : String)
  | updatePresence (barejid : String) (res : Resource)
        (last_activity : Option Nat)
  | contactOffline (barejid : String) (resource : Option String)
        (status : Option String)
  | resetSearchAttempts
  deriving DecidableEq, Repr

/-- Apply one operation to the state. -/
def applyOp (op : Op) (st : RosterState) : RosterState :=
  match op with
  | .add b n g s p => (roster_add st b n g s p).2
  | .update b n g s p => roster_update st b n g s p
  | .changeName b n => roster_change_name st b n
  | .remove n b => roster_remove st n b
  | .updatePresence b r la => (roster_update_presence st b r la).2
  | .contactOffline b r s => (roster_contact_offline st b r s).2
  | .resetSearchAttempts => st

/-- Apply a sequence of operations starting from the initial state. -/
def runOps (ops : List Op) : RosterState :=
  ops.foldl (fun st op => applyOp op st) rosterInit

/-! ### Basic lemmas about the table and autocomplete models -/

theorem tableLookup_eq_none_iff {α : Type} (m : List (String × α)) (k : String) :
    tableLookup m k = none ↔ k ∉ tableKeys m := by
  induction m with
  | nil => simp [tableLookup, tableKeys]
  | cons hd tl ih =>
    obtain ⟨k', v⟩ := hd
    by_cases h : k' = k
    · subst h
      simp [tableLookup, tableKeys]
    · simp [tableLookup, tableKeys, h, Ne.symm h] at ih ⊢
      exact ih

theorem tableLookup_tableInsert_self {α : Type} (m : List (String × α))
    (k : String) (v : α) : tableLookup (tableInsert m k v) k = some v := by
  induction m with
  | nil => simp [tableInsert, tableLookup]
  | cons hd tl ih =>
    obtain ⟨k', v'⟩ := hd
    by_cases h : k' = k
    · simp [tableInsert, tableLookup, h]
    · simp [tableInsert, tableLookup, h, ih]

theorem tableInsert_of_not_mem {α : Type} {m : List (String × α)} {k : String}
    (v : α) (h : k ∉ tableKeys m) : tableInsert m k v = m ++ [(k, v)] := by
  induction m with
  | nil => simp [tableInsert]
  | cons hd tl ih =>
    obtain ⟨k', v'⟩ := hd
    simp [tableKeys] at h
    simp [tableInsert, Ne.symm h.1, ih (by simp [tableKeys, h.2])]

theorem tableInsert_of_lookup {α : Type} {m : List (String × α)} {k : String}
    {v : α} (h : tableLookup m k = some v) : tableInsert m k v = m := by
  induction m with
  | nil => simp [tableLookup] at h
  | cons hd tl ih =>
    obtain ⟨k', v'⟩ := hd
    by_cases hk : k' = k
    · subst hk
      simp [tableLookup] at h
      simp [tableInsert, h]
    · simp [tableLookup, hk] at h
      simp [tableInsert, hk, ih h]

theorem mem_tableKeys_tableInsert {α : Type} (m : List (String × α))
    (k s : String) (v : α) :
    s ∈ tableKeys (tableInsert m k v) ↔ s = k ∨ s ∈ tableKeys m := by
  induction m with
  | nil => simp [tableInsert, tableKeys]
  | cons hd tl ih =>
    obtain ⟨k', v'⟩ := hd
    by_cases h : k' = k
    · subst h
      simp [tableInsert, tableKeys]
    · simp [tableInsert, tableKeys, h] at ih ⊢
      tauto

theorem nodup_tableKeys_tableInsert {α : Type} {m : List (String × α)}
    (k : String) (v : α) (h : (tableKeys m).Nodup) :
    (tableKeys (tableInsert m k v)).Nodup := by
  induction m with
  | nil => simp [tableInsert, tableKeys]
  | cons hd tl ih =>
    obtain ⟨k', v'⟩ := hd
    rw [show tableKeys ((k', v') :: tl) = k' :: tableKeys tl from rfl,
      List.nodup_cons] at h
    by_cases hk : k' = k
    · subst hk
      rw [show tableInsert ((k', v') :: tl) k' v = (k', v) :: tl from by
        simp [tableInsert]]
      rw [show tableKeys ((k', v) :: tl) = k' :: tableKeys tl from rfl,
        List.nodup_cons]
      exact h
    · rw [show tableInsert ((k', v') :: tl) k v =
        (k', v') :: tableInsert tl k v from by simp [tableInsert, hk]]
      rw [show tableKeys ((k', v') :: tableInsert tl k v) =
        k' :: tableKeys (tableInsert tl k v) from rfl, List.nodup_cons]
      refine ⟨fun hmem => ?_, ih h.2⟩
      rcases (mem_tableKeys_tableInsert tl k k' v).1 hmem with h1 | h1
      · exact hk h1
      · exact h.1 h1

theorem tableKeys_tableRemove {α : Type} (m : List (String × α)) (k : String) :
    tableKeys (tableRemove m k) = acRemove (tableKeys m) k := by
  induction m with
  | nil => simp [tableRemove, tableKeys, acRemove]
  | cons hd tl ih =>
    obtain ⟨k', v'⟩ := hd
    by_cases h : k' = k
    · simp [tableRemove, tableKeys, acRemove, h]
    · simp [tableRemove, tableKeys, acRemove, h]
      exact ih

theorem tableRemove_append_self {α : Type} {m : List (String × α)} {k : String}
    (v : α) (h : k ∉ tableKeys m) : tableRemove (m ++ [(k, v)]) k = m := by
  induction m with
  | nil => simp [tableRemove]
  | cons hd tl ih =>
    obtain ⟨k', v'⟩ := hd
    simp [tableKeys] at h
    simp [tableRemove, Ne.symm h.1, ih (by simp [tableKeys, h.2])]

theorem mem_acAdd (l : List String) (s t : String) :
    s ∈ acAdd l t ↔ s = t ∨ s ∈ l := by
  unfold acAdd
  by_cases h : t ∈ l
  · simp [h]
    intro hs
    subst hs
    exact h
  · simp [h, or_comm]

theorem acAdd_of_not_mem {l : List String} {t : String} (h : t ∉ l) :
    acAdd l t = l ++ [t] := by
  simp [acAdd, h]

theorem acAdd_of_mem {l : List String} {t : String} (h : t ∈ l) :
    acAdd l t = l := by
  simp [acAdd, h]

theorem nodup_acAdd {l : List String} (t : String) (h : l.Nodup) :
    (acAdd l t).Nodup := by
  unfold acAdd
  by_cases ht : t ∈ l
  · simpa [ht] using h
  · rw [if_neg ht]
    exact List.Nodup.append h (List.nodup_singleton t)
      (fun a ha hat => ht ((List.mem_singleton.1 hat) ▸ ha))

theorem acRemove_sublist (l : List String) (s : String) :
    List.Sublist (acRemove l s) l := by
  induction l with
  | nil => exact List.Sublist.refl _
  | cons hd tl ih =>
    by_cases h : hd = s
    · rw [show acRemove (hd :: tl) s = tl from by simp [acRemove, h]]
      exact List.sublist_cons_self hd tl
    · rw [show acRemove (hd :: tl) s = hd :: acRemove tl s from by
        simp [acRemove, h]]
      exact ih.cons₂ hd

theorem nodup_acRemove {l : List String} (s : String) (h : l.Nodup) :
    (acRemove l s).Nodup :=
  (acRemove_sublist l s).nodup h

theorem mem_acRemove_of_nodup {l : List String} (s t : String)
    (h : l.Nodup) : t ∈ acRemove l s ↔ t ∈ l ∧ t ≠ s := by
  induction l with
  | nil => simp [acRemove]
  | cons hd tl ih =>
    rw [List.nodup_cons] at h
    by_cases hs : hd = s
    · subst hs
      rw [show acRemove (hd :: tl) hd = tl from by simp [acRemove]]
      constructor
      · intro ht
        refine ⟨List.mem_cons_of_mem _ ht, fun heq => h.1 ?_⟩
        exact heq ▸ ht
      · rintro ⟨hmem, hne⟩
        rcases List.mem_cons.1 hmem with rfl | hmem2
        · exact absurd rfl hne
        · exact hmem2
    · rw [show acRemove (hd :: tl) s = hd :: acRemove tl s from by
        simp [acRemove, hs]]
      rw [List.mem_cons, List.mem_cons, ih h.2]
      constructor
      · rintro (rfl | ⟨ht, hne⟩)
        · exact ⟨Or.inl rfl, hs⟩
        · exact ⟨Or.inr ht, hne⟩
      · rintro ⟨rfl | ht, hne⟩
        · exact Or.inl rfl
        · exact Or.inr ⟨ht, hne⟩

theorem acRemove_append_self {l : List String} {s : String} (h : s ∉ l) :
    acRemove (l ++ [s]) s = l := by
  induction l with
  | nil => simp [acRemove]
  | cons hd tl ih =>
    simp at h
    simp [acRemove, Ne.symm h.1, ih h.2]

theorem mem_foldl_acAdd (gs : List String) (l : List String) (s : String)
    (h : s ∈ l) : s ∈ gs.foldl acAdd l := by
  induction gs generalizing l with
  | nil => simpa using h
  | cons g rest ih =>
    exact ih _ ((mem_acAdd l s g).2 (Or.inr h))

theorem acRemove_of_not_mem {l : List String} {s : String} (h : s ∉ l) :
    acRemove l s = l := by
  induction l with
  | nil => simp [acRemove]
  | cons hd tl ih =>
    simp at h
    simp [acRemove, Ne.symm h.1, ih h.2]

theorem length_acRemove_of_mem {l : List String} {s : String} (h : s ∈ l) :
    (acRemove l s).length + 1 = l.length := by
  induction l with
  | nil => simp at h
  | cons hd tl ih =>
    by_cases hs : hd = s
    · simp [acRemove, hs]
    · rcases List.mem_cons.1 h with rfl | hmem
      · exact absurd rfl hs
      · simp [acRemove, hs, ih hmem]

/-! ### The comparator order and the sorted queries -/

theorem strLtb_cons_iff (a b : Char) (as bs : List Char) :
    strLtb (a :: as) (b :: bs) = true ↔
      a < b ∨ (a = b ∧ strLtb as bs = true) := by
  rcases lt_trichotomy a b with h | h | h
  · simp [strLtb, h]
  · subst h
    simp [strLtb, lt_irrefl]
  · simp [strLtb, h, lt_asymm h, (ne_of_gt h : a ≠ b)]

theorem strLtb_asymm {s t : List Char} (h : strLtb s t = true) :
    strLtb t s = false := by
  induction s generalizing t with
  | nil =>
    cases t with
    | nil => simp [strLtb] at h
    | cons b bs => simp [strLtb]
  | cons a as ih =>
    cases t with
    | nil => simp [strLtb] at h
    | cons b bs =>
      rcases (strLtb_cons_iff a b as bs).1 h with h1 | ⟨rfl, h2⟩
      · rw [Bool.eq_false_iff]
        intro hcon
        rcases (strLtb_cons_iff b a bs as).1 hcon with h3 | ⟨h3, _⟩
        · exact lt_asymm h1 h3
        · exact lt_irrefl _ (h3 ▸ h1)
      · rw [Bool.eq_false_iff]
        intro hcon
        rcases (strLtb_cons_iff a a bs as).1 hcon with h3 | ⟨-, h3⟩
        · exact lt_irrefl _ h3
        · rw [ih h2] at h3
          exact Bool.false_ne_true h3

theorem strLtb_connected (u : List Char) :
    ∀ (s t : List Char), strLtb u s = true →
      strLtb u t = true ∨ strLtb t s = true := by
  induction u with
  | nil =>
    intro s t h
    cases s with
    | nil => simp [strLtb] at h
    | cons b bs =>
      cases t with
      | nil =>
        right
        simp [strLtb]
      | cons c cs =>
        left
        simp [strLtb]
  | cons a as ih =>
    intro s t h
    cases s with
    | nil => simp [strLtb] at h
    | cons b bs =>
      cases t with
      | nil =>
        right
        simp [strLtb]
      | cons c cs =>
        rcases (strLtb_cons_iff a b as bs).1 h with h1 | ⟨rfl, h2⟩
        · rcases lt_trichotomy a c with hac | hac | hac
          · exact Or.inl ((strLtb_cons_iff a c as cs).2 (Or.inl hac))
          · subst hac
            exact Or.inr ((strLtb_cons_iff a b cs bs).2 (Or.inl h1))
          · exact Or.inr
              ((strLtb_cons_iff c b cs bs).2 (Or.inl (lt_trans hac h1)))
        · rcases lt_trichotomy a c with hac | hac | hac
          · exact Or.inl ((strLtb_cons_iff a c as cs).2 (Or.inl hac))
          · subst hac
            rcases ih bs cs h2 with h3 | h3
            · exact Or.inl ((strLtb_cons_iff a a as cs).2 (Or.inr ⟨rfl, h3⟩))
            · exact Or.inr ((strLtb_cons_iff a a cs bs).2 (Or.inr ⟨rfl, h3⟩))
          · exact Or.inr ((strLtb_cons_iff c a cs bs).2 (Or.inl hac))

theorem contactR_char (a b : PContact) :
    contactR a b ↔
      (strLtb (contactKey a).data (contactKey b).data = true ∨
        strLtb (contactKey b).data (contactKey a).data = false) := by
  unfold contactR compare_contacts strcmp0
  by_cases h1 : strLtb (contactKey a).data (contactKey b).data = true
  · simp [h1]
  · by_cases h2 : strLtb (contactKey b).data (contactKey a).data = true
    · simp [h1, h2]
    · simp [h1, h2]

instance : IsTotal PContact contactR :=
  ⟨fun a b => by
    rw [contactR_char, contactR_char]
    by_cases h1 : strLtb (contactKey a).data (contactKey b).data = true
    · exact Or.inl (Or.inl h1)
    · exact Or.inr (Or.inr (by rwa [Bool.not_eq_true] at h1))⟩

instance : IsTrans PContact contactR :=
  ⟨fun a b c hab hbc => by
    rw [contactR_char] at hab hbc ⊢
    by_cases hca : strLtb (contactKey c).data (contactKey a).data = true
    · rcases strLtb_connected _ _ (contactKey b).data hca with h1 | h1
      · rcases hbc with h2 | h2
        · rw [strLtb_asymm h2] at h1
          exact absurd h1 Bool.false_ne_true
        · rw [h2] at h1
          exact absurd h1 Bool.false_ne_true
      · rcases hab with h2 | h2
        · rw [strLtb_asymm h2] at h1
          exact absurd h1 Bool.false_ne_true
        · rw [h2] at h1
          exact absurd h1 Bool.false_ne_true
    · exact Or.inr (by rwa [Bool.not_eq_true] at hca)⟩

theorem sorted_foldl_collect (p : PContact → Bool)
    (m : List (String × PContact)) (init : List PContact)
    (h : init.Sorted contactR) :
    (m.foldl (fun res kv => if p kv.2 then insertContactSorted res kv.2
      else res) init).Sorted contactR := by
  induction m generalizing init with
  | nil => simpa using h
  | cons kv rest ih =>
    simp only [List.foldl_cons]
    by_cases hp : p kv.2
    · simp only [hp, if_true]
      exact ih _ (h.orderedInsert kv.2 init)
    · simp only [hp]
      exact ih _ h

theorem sorted_sortedCollect (p : PContact → Bool)
    (m : List (String × PContact)) : (sortedCollect p m).Sorted contactR :=
  sorted_foldl_collect p m [] (List.sorted_nil)

theorem perm_foldl_collect (p : PContact → Bool)
    (m : List (String × PContact)) (init : List PContact) :
    (m.foldl (fun res kv => if p kv.2 then insertContactSorted res kv.2
      else res) init).Perm
      (init ++ (m.map (fun kv => kv.2)).filter p) := by
  induction m generalizing init with
  | nil => simp
  | cons kv rest ih =>
    simp only [List.foldl_cons, List.map_cons, List.filter_cons]
    by_cases hp : p kv.2
    · simp only [hp, if_true]
      refine (ih (insertContactSorted init kv.2)).trans ?_
      have h2 : (insertContactSorted init kv.2).Perm (kv.2 :: init) :=
        List.perm_orderedInsert _ _ _
      exact (h2.append_right _).trans List.perm_middle.symm
    · simp only [hp, if_false]
      simpa using ih init

theorem perm_sortedCollect (p : PContact → Bool)
    (m : List (String × PContact)) :
    (sortedCollect p m).Perm ((m.map (fun kv => kv.2)).filter p) := by
  simpa using perm_foldl_collect p m []

/-! ### The name-completion / name-index synchronisation invariant -/

/-- The strengthened synchronisation invariant between the nickname
autocomplete set and the nickname-to-barejid map: both are duplicate-free
and hold exactly the same strings. -/
def NameSync (ac : List String) (m : List (String × String)) : Prop :=
  ac.Nodup ∧ (tableKeys m).Nodup ∧ ∀ s, s ∈ tableKeys m ↔ s ∈ ac

theorem nameSync_addPair {ac : List String} {m : List (String × String)}
    (x b : String) (h : NameSync ac m) :
    NameSync (acAdd ac x) (tableInsert m x b) := by
  obtain ⟨h1, h2, h3⟩ := h
  refine ⟨nodup_acAdd x h1, nodup_tableKeys_tableInsert x b h2, fun s => ?_⟩
  rw [mem_tableKeys_tableInsert, mem_acAdd, h3]

theorem nameSync_removePair {ac : List String} {m : List (String × String)}
    (x : String) (h : NameSync ac m) :
    NameSync (acRemove ac x) (tableRemove m x) := by
  obtain ⟨h1, h2, h3⟩ := h
  refine ⟨nodup_acRemove x h1, ?_, fun s => ?_⟩
  · rw [tableKeys_tableRemove]
    exact nodup_acRemove x h2
  · rw [tableKeys_tableRemove, mem_acRemove_of_nodup x s h2,
      mem_acRemove_of_nodup x s h1, h3]

theorem nameSync_add_name_and_barejid (st : RosterState)
    (name : Option String) (b : String)
    (h : NameSync st.name_ac st.name_to_barejid) :
    NameSync (add_name_and_barejid st name b).name_ac
      (add_name_and_barejid st name b).name_to_barejid := by
  cases name with
  | none => exact nameSync_addPair b b h
  | some n => exact nameSync_addPair n b h

theorem nameSync_replace_name (st : RosterState)
    (current_name new_name : Option String) (b : String)
    (h : NameSync st.name_ac st.name_to_barejid) :
    NameSync (replace_name st current_name new_name b).name_ac
      (replace_name st current_name new_name b).name_to_barejid := by
  cases current_name with
  | some cn =>
    exact nameSync_add_name_and_barejid _ new_name b (nameSync_removePair cn h)
  | none =>
    cases new_name with
    | some nn =>
      exact nameSync_add_name_and_barejid _ (some nn) b
        (nameSync_removePair b h)
    | none => exact h

/-! ### Shape lemmas for the operations -/

theorem roster_add_of_found {st : RosterState} {b : String} {c : PContact}
    (n : Option String) (g : List String) (sub : Option String) (p : Bool)
    (h : roster_get_contact st b = some c) :
    roster_add st b n g sub p = (false, st) := by
  unfold roster_add
  rw [h]

theorem roster_add_of_not_found {st : RosterState} {b : String}
    (n : Option String) (g : List String) (sub : Option String) (p : Bool)
    (h : roster_get_contact st b = none) :
    roster_add st b n g sub p =
      (true, add_name_and_barejid
        { st with groups_ac := g.foldl acAdd st.groups_ac,
                  contacts := tableInsert st.contacts b
                    (p_contact_new b n g sub p),
                  barejid_ac := acAdd st.barejid_ac b } n b) := by
  unfold roster_add
  rw [h]

theorem add_name_and_barejid_fields (st : RosterState) (n : Option String)
    (b : String) :
    (add_name_and_barejid st n b).contacts = st.contacts ∧
    (add_name_and_barejid st n b).barejid_ac = st.barejid_ac ∧
    (add_name_and_barejid st n b).fulljid_ac = st.fulljid_ac ∧
    (add_name_and_barejid st n b).groups_ac = st.groups_ac ∧
    (add_name_and_barejid st n b).name_ac =
      acAdd st.name_ac (n.getD b) ∧
    (add_name_and_barejid st n b).name_to_barejid =
      tableInsert st.name_to_barejid (n.getD b) b := by
  cases n <;> simp [add_name_and_barejid]

theorem replace_name_fields (st : RosterState)
    (cur new : Option String) (b : String) :
    (replace_name st cur new b).contacts = st.contacts ∧
    (replace_name st cur new b).barejid_ac = st.barejid_ac ∧
    (replace_name st cur new b).fulljid_ac = st.fulljid_ac ∧
    (replace_name st cur new b).groups_ac = st.groups_ac := by
  cases cur with
  | some cn =>
    have h := add_name_and_barejid_fields
      { st with name_ac := acRemove st.name_ac cn,
                name_to_barejid := tableRemove st.name_to_barejid cn } new b
    exact ⟨h.1, h.2.1, h.2.2.1, h.2.2.2.1⟩
  | none =>
    cases new with
    | some nn =>
      have h := add_name_and_barejid_fields
        { st with name_ac := acRemove st.name_ac b,
                  name_to_barejid := tableRemove st.name_to_barejid b }
        (some nn) b
      exact ⟨h.1, h.2.1, h.2.2.1, h.2.2.2.1⟩
    | none => exact ⟨rfl, rfl, rfl, rfl⟩

theorem roster_remove_fields (st : RosterState) (nm : Option String)
    (b : String) :
    (roster_remove st nm b).contacts = tableRemove st.contacts b ∧
    (roster_remove st nm b).barejid_ac = acRemove st.barejid_ac b ∧
    (roster_remove st nm b).groups_ac = st.groups_ac ∧
    (roster_remove st nm b).name_ac =
      (match nm with
       | some n => acRemove st.name_ac n
       | none => st.name_ac) ∧
    (roster_remove st nm b).name_to_barejid =
      (match nm with
       | some n => tableRemove st.name_to_barejid n
       | none => st.name_to_barejid) := by
  cases nm with
  | some n => exact ⟨rfl, rfl, rfl, rfl, rfl⟩
  | none => exact ⟨rfl, rfl, rfl, rfl, rfl⟩

theorem roster_update_presence_of_found {st : RosterState} {b : String}
    {c : PContact} (res : Resource) (la : Option Nat)
    (h : roster_get_contact st b = some c) :
    roster_update_presence st b res la =
      (true,
        { st with
           contacts := tableInsert st.contacts (g_utf8_strdown b)
             (p_contact_set_presence
               (if ¬ (datetimes_equal c.last_activity la = true) then
                  { c with last_activity := la }
                else c) res),
           fulljid_ac := acAdd st.fulljid_ac (fulljidOf b res.name) }) := by
  unfold roster_update_presence
  rw [h]

theorem roster_update_fields (st : RosterState) (b : String)
    (n : Option String) (g : List String) (sub : Option String) (p : Bool) :
    (roster_update st b n g sub p).fulljid_ac = st.fulljid_ac ∧
    (roster_update st b n g sub p).barejid_ac = st.barejid_ac := by
  unfold roster_update
  split
  · exact ⟨rfl, rfl⟩
  · exact ⟨(replace_name_fields _ _ _ _).2.2.1, (replace_name_fields _ _ _ _).2.1⟩

theorem nameSync_applyOp (op : Op) (st : RosterState)
    (h : NameSync st.name_ac st.name_to_barejid) :
    NameSync (applyOp op st).name_ac (applyOp op st).name_to_barejid := by
  cases op with
  | add b n g sub p =>
    show NameSync (roster_add st b n g sub p).2.name_ac
      (roster_add st b n g sub p).2.name_to_barejid
    cases hc : roster_get_contact st b with
    | some c =>
      rw [roster_add_of_found n g sub p hc]
      exact h
    | none =>
      rw [roster_add_of_not_found n g sub p hc]
      exact nameSync_add_name_and_barejid _ n b h
  | update b n g sub p =>
    show NameSync (roster_update st b n g sub p).name_ac
      (roster_update st b n g sub p).name_to_barejid
    unfold roster_update
    cases hc : roster_get_contact st b with
    | none => exact h
    | some c => exact nameSync_replace_name _ _ _ _ h
  | changeName b n =>
    show NameSync (roster_change_name st b n).name_ac
      (roster_change_name st b n).name_to_barejid
    unfold roster_change_name
    cases hc : roster_get_contact st b with
    | none => exact h
    | some c => exact nameSync_replace_name _ _ _ _ h
  | remove nm b =>
    show NameSync (roster_remove st nm b).name_ac
      (roster_remove st nm b).name_to_barejid
    cases nm with
    | some n' =>
      rw [(roster_remove_fields st (some n') b).2.2.2.1,
        (roster_remove_fields st (some n') b).2.2.2.2]
      exact nameSync_removePair n' h
    | none =>
      rw [(roster_remove_fields st none b).2.2.2.1,
        (roster_remove_fields st none b).2.2.2.2]
      exact h
  | updatePresence b r la =>
    show NameSync (roster_update_presence st b r la).2.name_ac
      (roster_update_presence st b r la).2.name_to_barejid
    unfold roster_update_presence
    cases hc : roster_get_contact st b with
    | none => exact h
    | some c => exact h
  | contactOffline b r s =>
    show NameSync (roster_contact_offline st b r s).2.name_ac
      (roster_contact_offline st b r s).2.name_to_barejid
    unfold roster_contact_offline
    cases hc : roster_get_contact st b with
    | none => exact h
    | some c =>
      cases r with
      | none => exact h
      | some rn => exact h
  | resetSearchAttempts => exact h

theorem nameSync_runOps (ops : List Op) :
    NameSync (runOps ops).name_ac (runOps ops).name_to_barejid := by
  have hgen : ∀ (l : List Op) (st : RosterState),
      NameSync st.name_ac st.name_to_barejid →
      NameSync (l.foldl (fun s op => applyOp op s) st).name_ac
        (l.foldl (fun s op => applyOp op s) st).name_to_barejid := by
    intro l
    induction l with
    | nil =>
      intro st h
      simpa using h
    | cons op rest ih =>
      intro st h
      simpa using ih _ (nameSync_applyOp op st h)
  exact hgen ops rosterInit
    ⟨List.nodup_nil, List.nodup_nil, fun s => Iff.rfl⟩

/-! ### The claims -/

/-- C1 counterexample: the barejid is *not* lower-cased before storage.
Starting from the empty index, `add "A@x"` succeeds and stores the key
`"A@x"` as given; a second `add "a@x"` also succeeds because the
lower-cased lookup misses the mixed-case key, leaving two distinct entries
whose keys are case variants of the same barejid. -/
theorem c1_counterexample :
    (roster_add rosterInit "A@x" none [] none false).1 = true ∧
    (roster_add (roster_add rosterInit "A@x" none [] none false).2
        "a@x" none [] none false).1 = true ∧
    tableKeys (roster_add (roster_add rosterInit "A@x" none [] none false).2
        "a@x" none [] none false).2.contacts = ["A@x", "a@x"] ∧
    g_utf8_strdown "A@x" = g_utf8_strdown "a@x" ∧
    "A@x" ≠ "a@x" := by
  decide

/-- C1 (amended): the barejid is lower-cased before lookup only; storage
keeps the key as given.  Hence `getContact` returns the same result on any
two case variants of a barejid, and when `add b` succeeds for an
all-lower-case `b`, `getContact b` returns the newly created contact. -/
theorem c1_lookup_case_insensitive :
    (∀ (st : RosterState) (b b' : String),
        g_utf8_strdown b = g_utf8_strdown b' →
        roster_get_contact st b = roster_get_contact st b') ∧
    (∀ (st : RosterState) (b : String) (n : Option String) (g : List String)
        (sub : Option String) (p : Bool),
        g_utf8_strdown b = b → roster_get_contact st b = none →
        roster_get_contact (roster_add st b n g sub p).2 b =
          some (p_contact_new b n g sub p)) := by
  constructor
  · intro st b b' h
    unfold roster_get_contact
    rw [h]
  · intro st b n g sub p hlow hnone
    rw [roster_add_of_not_found n g sub p hnone]
    unfold roster_get_contact
    rw [(add_name_and_barejid_fields _ n b).1, hlow]
    exact tableLookup_tableInsert_self _ _ _

/-- Witness for the amended C1 at concrete inputs. -/
theorem c1_witness :
    roster_get_contact rosterInit "A@x" =
      roster_get_contact rosterInit "a@x" ∧
    roster_get_contact
        (roster_add rosterInit "a@x" none [] none false).2 "a@x" =
      some (p_contact_new "a@x" none [] none false) :=
  ⟨c1_lookup_case_insensitive.1 rosterInit "A@x" "a@x" (by decide),
   c1_lookup_case_insensitive.2 rosterInit "a@x" none [] none false
     (by decide) (by decide)⟩

/-- C2 counterexample: if another contact already owns the same display
name, `add` then `remove` with that name does not restore the name
completion set — the shared name is deleted outright.  Concretely: with
`a@x` named `"Bob"` in the index, adding `b@x` named `"Bob"` (the add
succeeds) and then removing it leaves the name set empty instead of
`["Bob"]`. -/
theorem c2_counterexample :
    roster_get_contact (runOps [Op.add "a@x" (some "Bob") [] none false])
      "b@x" = none ∧
    (roster_add (runOps [Op.add "a@x" (some "Bob") [] none false])
        "b@x" (some "Bob") [] none false).1 = true ∧
    (runOps [Op.add "a@x" (some "Bob") [] none false]).name_ac = ["Bob"] ∧
    (roster_remove
        (roster_add (runOps [Op.add "a@x" (some "Bob") [] none false])
          "b@x" (some "Bob") [] none false).2
        (some "Bob") "b@x").name_ac = [] := by
  decide

/-- C2 (amended): when the added barejid is fresh for the contacts table
and the barejid completion set, and a display name is supplied that is not
already in the name completion set, `add` followed by `remove` with the
same name and barejid restores `contacts`, `barejidCompletion` and
`nameCompletion` to their pre-add values. -/
theorem c2_add_remove_restores (st : RosterState) (b n : String)
    (g : List String) (sub : Option String) (p : Bool)
    (h1 : roster_get_contact st b = none)
    (h2 : b ∉ tableKeys st.contacts)
    (h3 : b ∉ st.barejid_ac)
    (h4 : n ∉ st.name_ac) :
    (roster_remove (roster_add st b (some n) g sub p).2
        (some n) b).contacts = st.contacts ∧
    (roster_remove (roster_add st b (some n) g sub p).2
        (some n) b).barejid_ac = st.barejid_ac ∧
    (roster_remove (roster_add st b (some n) g sub p).2
        (some n) b).name_ac = st.name_ac := by
  have hadd := roster_add_of_not_found (some n) g sub p h1
  have hc : ((roster_add st b (some n) g sub p).2).contacts =
      st.contacts ++ [(b, p_contact_new b (some n) g sub p)] := by
    rw [hadd, (add_name_and_barejid_fields _ (some n) b).1]
    exact tableInsert_of_not_mem _ h2
  have hb : ((roster_add st b (some n) g sub p).2).barejid_ac =
      st.barejid_ac ++ [b] := by
    rw [hadd, (add_name_and_barejid_fields _ (some n) b).2.1]
    exact acAdd_of_not_mem h3
  have hn : ((roster_add st b (some n) g sub p).2).name_ac =
      st.name_ac ++ [n] := by
    rw [hadd, (add_name_and_barejid_fields _ (some n) b).2.2.2.2.1]
    exact acAdd_of_not_mem h4
  have hrem := roster_remove_fields
    ((roster_add st b (some n) g sub p).2) (some n) b
  refine ⟨?_, ?_, ?_⟩
  · rw [hrem.1, hc]
    exact tableRemove_append_self _ h2
  · rw [hrem.2.1, hb]
    exact acRemove_append_self h3
  · rw [hrem.2.2.2.1, hn]
    exact acRemove_append_self h4

/-- Witness for the amended C2 at concrete inputs. -/
theorem c2_witness :
    (roster_remove (roster_add rosterInit "a@x" (some "Bob") [] none false).2
        (some "Bob") "a@x").contacts = rosterInit.contacts ∧
    (roster_remove (roster_add rosterInit "a@x" (some "Bob") [] none false).2
        (some "Bob") "a@x").barejid_ac = rosterInit.barejid_ac ∧
    (roster_remove (roster_add rosterInit "a@x" (some "Bob") [] none false).2
        (some "Bob") "a@x").name_ac = rosterInit.name_ac :=
  c2_add_remove_restores rosterInit "a@x" "Bob" [] none false
    (by decide) (by decide) (by decide) (by decide)

/-- C4 counterexample: `add` twice with the same mixed-case barejid does
not return false the second time.  The presence check lower-cases before
lookup while storage keeps the original case, so the second `add "A@x"`
misses the stored `"A@x"` entry and succeeds. -/
theorem c4_counterexample :
    (roster_add rosterInit "A@x" none [] none false).1 = true ∧
    (roster_add (roster_add rosterInit "A@x" none [] none false).2
        "A@x" none [] none false).1 = true := by
  decide

/-- C4 (amended): when the (lower-cased) barejid already resolves to a
contact, `add` returns false and performs no mutation; consequently, for an
all-lower-case barejid, a second `add` with the same barejid returns false
and leaves the whole index unchanged. -/
theorem c4_add_existing :
    (∀ (st : RosterState) (b : String) (n : Option String)
        (g : List String) (sub : Option String) (p : Bool) (c : PContact),
        roster_get_contact st b = some c →
        roster_add st b n g sub p = (false, st)) ∧
    (∀ (st : RosterState) (b : String) (n : Option String)
        (g : List String) (sub : Option String) (p : Bool),
        g_utf8_strdown b = b →
        roster_add (roster_add st b n g sub p).2 b n g sub p =
          (false, (roster_add st b n g sub p).2)) := by
  constructor
  · intro st b n g sub p c h
    exact roster_add_of_found n g sub p h
  · intro st b n g sub p hlow
    cases hc : roster_get_contact st b with
    | some c =>
      rw [roster_add_of_found n g sub p hc]
      exact roster_add_of_found n g sub p hc
    | none =>
      rw [roster_add_of_not_found n g sub p hc]
      have hfound : roster_get_contact
          (add_name_and_barejid
            { st with groups_ac := g.foldl acAdd st.groups_ac,
                      contacts := tableInsert st.contacts b
                        (p_contact_new b n g sub p),
                      barejid_ac := acAdd st.barejid_ac b } n b) b =
          some (p_contact_new b n g sub p) := by
        unfold roster_get_contact
        rw [(add_name_and_barejid_fields _ n b).1, hlow]
        exact tableLookup_tableInsert_self _ _ _
      exact roster_add_of_found n g sub p hfound

/-- Witness for the amended C4 at concrete inputs. -/
theorem c4_witness :
    roster_add (roster_add rosterInit "a@x" none [] none false).2
        "a@x" none [] none false =
      (false, (roster_add rosterInit "a@x" none [] none false).2) :=
  c4_add_existing.2 rosterInit "a@x" none [] none false (by decide)

/-- C5: `updatePresence` on an unknown barejid (one the lower-cased lookup
does not resolve) returns false and leaves the state unchanged. -/
theorem c5_update_presence_unknown (st : RosterState) (b : String)
    (res : Resource) (la : Option Nat)
    (h : roster_get_contact st b = none) :
    roster_update_presence st b res la = (false, st) := by
  unfold roster_update_presence
  rw [h]

/-- Witness for C5 at concrete inputs. -/
theorem c5_witness :
    roster_update_presence rosterInit "a@x" ⟨"phone", "away"⟩ none =
      (false, rosterInit) :=
  c5_update_presence_unknown rosterInit "a@x" ⟨"phone", "away"⟩ none
    (by decide)

/-- C6: on a known contact `updatePresence` succeeds; the stored contact's
last-activity becomes the new value exactly when it differs under the
`_datetimes_equal` rule (both-absent equal, one-absent different,
both-present value comparison), the resource's presence is applied onto the
Contact, and `barejid/resource` is added to the fulljid completion set with
no duplicate when already present. -/
theorem c6_update_presence_known (st : RosterState) (b : String)
    (res : Resource) (la : Option Nat) (c : PContact)
    (h : roster_get_contact st b = some c) :
    (roster_update_presence st b res la).1 = true ∧
    (∃ c', roster_get_contact (roster_update_presence st b res la).2 b =
        some c' ∧
      c'.last_activity =
        (if datetimes_equal c.last_activity la then c.last_activity else la) ∧
      c'.resources = tableInsert c.resources res.name res) ∧
    fulljidOf b res.name ∈ (roster_update_presence st b res la).2.fulljid_ac ∧
    (fulljidOf b res.name ∈ st.fulljid_ac →
      (roster_update_presence st b res la).2.fulljid_ac = st.fulljid_ac) ∧
    datetimes_equal none none = true ∧
    (∀ x, datetimes_equal none (some x) = false) ∧
    (∀ x, datetimes_equal (some x) none = false) ∧
    (∀ x y, datetimes_equal (some x) (some y) = (x == y)) := by
  rw [roster_update_presence_of_found res la h]
  refine ⟨rfl,
    ⟨p_contact_set_presence
        (if ¬ (datetimes_equal c.last_activity la = true) then
          { c with last_activity := la }
        else c) res, ?_, ?_, ?_⟩, ?_, ?_, rfl, fun x => rfl, fun x => rfl,
    fun x y => rfl⟩
  · unfold roster_get_contact
    exact tableLookup_tableInsert_self _ _ _
  · by_cases heq : datetimes_equal c.last_activity la = true <;>
      simp [heq, p_contact_set_presence]
  · by_cases heq : datetimes_equal c.last_activity la = true <;>
      simp [heq, p_contact_set_presence]
  · exact (mem_acAdd _ _ _).2 (Or.inl rfl)
  · intro hmem
    exact acAdd_of_mem hmem

/-- Witness for C6 at concrete inputs. -/
theorem c6_witness :
    (roster_update_presence (roster_add rosterInit "a@x" none [] none
        false).2 "a@x" ⟨"phone", "away"⟩ (some 5)).1 = true :=
  (c6_update_presence_known (roster_add rosterInit "a@x" none [] none
      false).2 "a@x" ⟨"phone", "away"⟩ (some 5)
    (p_contact_new "a@x" none [] none false) (by decide)).1

/-- C7: `contactOffline` fails on an unknown barejid; on a known one it
succeeds with no structural change when no resource is given; with a
resource it returns the Contact's removal outcome, strips `barejid/resource`
from the fulljid set only when the Contact confirms the removal (removing
exactly one entry when the string was present and none otherwise), and
changes nothing at all when the Contact does not confirm. -/
theorem c7_contact_offline :
    (∀ (st : RosterState) (b : String) (r s : Option String),
        roster_get_contact st b = none →
        roster_contact_offline st b r s = (false, st)) ∧
    (∀ (st : RosterState) (b : String) (s : Option String) (c : PContact),
        roster_get_contact st b = some c →
        roster_contact_offline st b none s = (true, st)) ∧
    (∀ (st : RosterState) (b rn : String) (s : Option String) (c : PContact),
        roster_get_contact st b = some c →
        (roster_contact_offline st b (some rn) s).1 =
          (p_contact_remove_resource c rn).1 ∧
        ((p_contact_remove_resource c rn).1 = true →
          (roster_contact_offline st b (some rn) s).2.fulljid_ac =
            acRemove st.fulljid_ac (fulljidOf b rn) ∧
          (fulljidOf b rn ∈ st.fulljid_ac →
            (roster_contact_offline st b (some rn) s).2.fulljid_ac.length + 1
              = st.fulljid_ac.length) ∧
          (fulljidOf b rn ∉ st.fulljid_ac →
            (roster_contact_offline st b (some rn) s).2.fulljid_ac =
              st.fulljid_ac)) ∧
        ((p_contact_remove_resource c rn).1 = false →
          (roster_contact_offline st b (some rn) s).2 = st)) := by
  refine ⟨?_, ?_, ?_⟩
  · intro st b r s h
    unfold roster_contact_offline
    rw [h]
  · intro st b s c h
    unfold roster_contact_offline
    rw [h]
  · intro st b rn s c h
    have hco : roster_contact_offline st b (some rn) s =
        ((p_contact_remove_resource c rn).1,
          { st with
             contacts := tableInsert st.contacts (g_utf8_strdown b)
               (p_contact_remove_resource c rn).2,
             fulljid_ac :=
               if (p_contact_remove_resource c rn).1 then
                 acRemove st.fulljid_ac (fulljidOf b rn)
               else st.fulljid_ac }) := by
      unfold roster_contact_offline
      rw [h]
    rw [hco]
    refine ⟨rfl, fun hres => ?_, fun hres => ?_⟩
    · rw [hres]
      refine ⟨rfl, fun hmem => ?_, fun hmem => ?_⟩
      · simpa using length_acRemove_of_mem hmem
      · simpa using acRemove_of_not_mem hmem
    · rw [hres]
      have hc2 : (p_contact_remove_resource c rn).2 = c := by
        unfold p_contact_remove_resource at hres ⊢
        by_cases hex : (tableLookup c.resources rn).isSome = true
        · rw [if_pos hex] at hres
          exact absurd hres (by simp)
        · rw [if_neg hex]
      rw [hc2, tableInsert_of_lookup h]
      rfl

/-- Witness for C7 at concrete inputs. -/
theorem c7_witness :
    roster_contact_offline rosterInit "nobody@x" (some "phone") none =
      (false, rosterInit) ∧
    roster_contact_offline
        (roster_update_presence (roster_add rosterInit "a@x" none [] none
          false).2 "a@x" ⟨"phone", "away"⟩ none).2 "a@x" none none =
      (true,
        (roster_update_presence (roster_add rosterInit "a@x" none [] none
          false).2 "a@x" ⟨"phone", "away"⟩ none).2) ∧
    (roster_contact_offline
        (roster_update_presence (roster_add rosterInit "a@x" none [] none
          false).2 "a@x" ⟨"phone", "away"⟩ none).2 "a@x" (some "phone")
        none).1 =
      (p_contact_remove_resource
        (p_contact_set_presence (p_contact_new "a@x" none [] none false)
          ⟨"phone", "away"⟩) "phone").1 :=
  ⟨c7_contact_offline.1 rosterInit "nobody@x" (some "phone") none
      (by decide),
   c7_contact_offline.2.1 _ "a@x" none
      (p_contact_set_presence (p_contact_new "a@x" none [] none false)
        ⟨"phone", "away"⟩) (by decide),
   (c7_contact_offline.2.2 _ "a@x" "phone" none
      (p_contact_set_presence (p_contact_new "a@x" none [] none false)
        ⟨"phone", "away"⟩) (by decide)).1⟩

/-- C9: the group completion set is monotone under every operation of the
roster API: a group name present before any `add`, `update`, `changeName`,
`remove`, `updatePresence`, `contactOffline` or `resetSearchAttempts` is
still present afterwards. -/
theorem c9_group_completion_monotone (op : Op) (st : RosterState)
    (s : String) (h : s ∈ st.groups_ac) : s ∈ (applyOp op st).groups_ac := by
  cases op with
  | add b n g sub p =>
    show s ∈ (roster_add st b n g sub p).2.groups_ac
    cases hc : roster_get_contact st b with
    | some c =>
      rw [roster_add_of_found n g sub p hc]
      exact h
    | none =>
      rw [roster_add_of_not_found n g sub p hc,
        (add_name_and_barejid_fields _ n b).2.2.2.1]
      exact mem_foldl_acAdd g st.groups_ac s h
  | update b n g sub p =>
    show s ∈ (roster_update st b n g sub p).groups_ac
    unfold roster_update
    cases hc : roster_get_contact st b with
    | none => exact h
    | some c =>
      exact mem_foldl_acAdd g _ s
        (by rw [(replace_name_fields _ _ _ _).2.2.2]; exact h)
  | changeName b n =>
    show s ∈ (roster_change_name st b n).groups_ac
    unfold roster_change_name
    cases hc : roster_get_contact st b with
    | none => exact h
    | some c =>
      rw [(replace_name_fields _ _ _ _).2.2.2]
      exact h
  | remove nm b =>
    show s ∈ (roster_remove st nm b).groups_ac
    rw [(roster_remove_fields st nm b).2.2.1]
    exact h
  | updatePresence b r la =>
    show s ∈ (roster_update_presence st b r la).2.groups_ac
    unfold roster_update_presence
    cases hc : roster_get_contact st b with
    | none => exact h
    | some c => exact h
  | contactOffline b r st' =>
    show s ∈ (roster_contact_offline st b r st').2.groups_ac
    unfold roster_contact_offline
    cases hc : roster_get_contact st b with
    | none => exact h
    | some c =>
      cases r with
      | none => exact h
      | some rn => exact h
  | resetSearchAttempts => exact h

/-- Witness for C9 at concrete inputs. -/
theorem c9_witness :
    "g" ∈ (applyOp (Op.remove none "a@x")
      (roster_add rosterInit "a@x" none ["g"] none false).2).groups_ac :=
  c9_group_completion_monotone (Op.remove none "a@x")
    (roster_add rosterInit "a@x" none ["g"] none false).2 "g" (by decide)

/-- C3 counterexample: when two contacts share a display name, the single
name-index entry maps it to the most recently registered barejid, so the
earlier contact has *no* entry mapping its display name to its own barejid.
After `add "a@x" "Bob"` then `add "b@x" "Bob"`, contact `a@x` is present
with name `"Bob"`, yet the only name-index entry is `"Bob" ↦ "b@x"`. -/
theorem c3_counterexample :
    roster_get_contact (runOps [Op.add "a@x" (some "Bob") [] none false,
        Op.add "b@x" (some "Bob") [] none false]) "a@x" =
      some (p_contact_new "a@x" (some "Bob") [] none false) ∧
    tableKeys (runOps [Op.add "a@x" (some "Bob") [] none false,
        Op.add "b@x" (some "Bob") [] none false]).name_to_barejid =
      ["Bob"] ∧
    tableLookup (runOps [Op.add "a@x" (some "Bob") [] none false,
        Op.add "b@x" (some "Bob") [] none false]).name_to_barejid "Bob" =
      some "b@x" ∧
    "b@x" ≠ "a@x" := by
  decide

/-- C3 (amended): the name-registration rule does keep `nameCompletion` and
`nameIndex` in sync — after any sequence of roster operations from the
initial state, the set of name-index keys equals the set of strings in the
name completion set — but a Contact need not own a name-index entry for its
display name when another contact registered the same name later. -/
theorem c3_name_index_sync (ops : List Op) (s : String) :
    s ∈ tableKeys (runOps ops).name_to_barejid ↔ s ∈ (runOps ops).name_ac :=
  (nameSync_runOps ops).2.2 s

/-- C8: every list-producing query returns a sequence sorted by the
`_compare_contacts` order — the lexicographic comparison of the contacts'
collation keys, the name key when a display name is present and the barejid
key otherwise; `getContacts` returns a permutation of the stored contacts;
and on the spec's example (`Zed`/`b@x` added before `Amy`/`a@x`) the output
order is `[Amy, Zed]`. -/
theorem c8_queries_sorted :
    (∀ st : RosterState, (roster_get_contacts st).Sorted contactR ∧
        (roster_get_contacts st).Perm (st.contacts.map (fun kv => kv.2))) ∧
    (∀ (st : RosterState) (pres : String),
        (roster_get_contacts_by_presence st pres).Sorted contactR) ∧
    (∀ st : RosterState, (roster_get_contacts_online st).Sorted contactR) ∧
    (∀ st : RosterState, (roster_get_nogroup st).Sorted contactR) ∧
    (∀ (st : RosterState) (gr : String),
        (roster_get_group st gr).Sorted contactR) ∧
    (roster_get_contacts (runOps [Op.add "b@x" (some "Zed") [] none false,
        Op.add "a@x" (some "Amy") [] none false])).map (fun c => c.name) =
      [some "Amy", some "Zed"] := by
  refine ⟨fun st => ⟨sorted_sortedCollect _ _, ?_⟩,
    fun st pres => sorted_sortedCollect _ _,
    fun st => sorted_sortedCollect _ _,
    fun st => sorted_sortedCollect _ _,
    fun st gr => sorted_sortedCollect _ _, by decide⟩
  simpa using perm_sortedCollect (fun _ => true) st.contacts

/-- C10: `getContactsOnline` returns exactly the contacts whose presence
string differs from `"offline"` (a permutation of that filtering of the
stored contacts), sorted by the `_compare_contacts` order; being a pure
function of the state, it performs no mutation. -/
theorem c10_contacts_online (st : RosterState) :
    (roster_get_contacts_online st).Sorted contactR ∧
    (roster_get_contacts_online st).Perm
      ((st.contacts.map (fun kv => kv.2)).filter
        (fun c => p_contact_presence c != "offline")) :=
  ⟨sorted_sortedCollect _ _, perm_sortedCollect _ _⟩

end Roster
